import Mathlib

/-!
Verification development for the patient-data-processor repository.

The pipeline is shallowly embedded here:
- `CellValue` / `Rec` model the loosely typed JS objects that row records are;
- `extractHeaders`, `rowDataOf`, `excelBatches`, `parseExcelSheet` embed
  `parseExcelFile` from `src/lib/fileParser.ts`;
- `csvWorkerRun` embeds the CSV worker message handler from
  `createCSVParserWorker` (the worker forwards parser-delivered chunks);
- `TableState` with `loadData`, `updateData`, `editCell`, `handleSaveChanges`,
  `handleRevertChanges`, `handleDeleteSelected` embeds the reconciliation
  state of `PatientTable.tsx`;
- `preparePatient`, `buildUpdateOp`, `bulkPutHandler`, `idHandler`,
  `uploadHandler` embed `models/Patient.ts` and the API route handlers.
-/

/-- A loosely typed scalar cell value, as stored on a JS record object. -/
inductive CellValue where
  | str (s : String)
  | num (n : Int)
  | boolean (b : Bool)
  | date (t : Nat)
  | null
deriving DecidableEq, Repr

/-- Models JS `String(v)` / `v.toString()` on a cell value. -/
def cellToString : CellValue → String
  | .str s => s
  | .num n => toString n
  | .boolean b => cond b "true" "false"
  | .date t => "Date(" ++ toString t ++ ")"
  | .null => "null"

/-- Models JS falsiness of a cell value (`""`, `0`, `false`, `null`). -/
def jsFalsy : CellValue → Bool
  | .str s => s = ""
  | .num n => n = 0
  | .boolean b => !b
  | .date _ => false
  | .null => true

/-- A record: a JS object modelled as an insertion-ordered key/value list. -/
abbrev Rec := List (String × CellValue)

/-- Read a property of a record (`r[k]`). -/
def getField : Rec → String → Option CellValue
  | [], _ => none
  | (k, v) :: rest, key => if k = key then some v else getField rest key

/-- JS property assignment `r[k] = v`: update in place if the key exists
(keeping its position), otherwise append the new key. -/
def setField : Rec → String → CellValue → Rec
  | [], key, v => [(key, v)]
  | (k, w) :: rest, key, v =>
      if k = key then (k, v) :: rest else (k, w) :: setField rest key v

/-- JS rest-destructuring `const { k, ...rest } = r`: drop the key. -/
def removeField (r : Rec) (key : String) : Rec :=
  r.filter (fun kv => kv.1 != key)

/-! ## Tabular decoder, spreadsheet variant (`parseExcelFile`) -/

/-- Header extraction from row 1, from position `n` (1-based column number).
Embeds `worksheet.getRow(1).eachCell((cell, colNumber) => ...)`: `eachCell`
visits only the cells that are present (`some`), and for a visited cell the
header is `cell.value?.toString() || ('Column' + colNumber)` — the synthetic
name fires only when the string form is empty. -/
def extractHeadersFrom : Nat → List (Option CellValue) → List String
  | _, [] => []
  | n, none :: rest => extractHeadersFrom (n + 1) rest
  | n, some c :: rest =>
      (if cellToString c = "" then "Column" ++ toString n else cellToString c)
        :: extractHeadersFrom (n + 1) rest

/-- Headers of the first worksheet row (column numbers start at 1). -/
def extractHeaders (row : List (Option CellValue)) : List String :=
  extractHeadersFrom 1 row

/-- Builds one record from a data row, from column `n`.  Embeds
`row.eachCell((cell, colNumber) => { if (colNumber <= headers.length)
rowData[headers[colNumber-1]] = value })`: absent cells are skipped, cells
past the header width are silently dropped.  (The `cell.type === Date`
branch of the source keeps the value as-is, so it is the identity here.) -/
def rowDataFrom (headers : List String) : Nat → List (Option CellValue) → Rec → Rec
  | _, [], acc => acc
  | n, none :: rest, acc => rowDataFrom headers (n + 1) rest acc
  | n, some c :: rest, acc =>
      rowDataFrom headers (n + 1) rest
        (if n ≤ headers.length then setField acc (headers.getD (n - 1) "") c else acc)

/-- The record produced for one data row. -/
def rowDataOf (headers : List String) (row : List (Option CellValue)) : Rec :=
  rowDataFrom headers 1 row []

/-- `const CHUNK_SIZE = 100` in `parseExcelFile`. -/
def CHUNK_SIZE : Nat := 100

/-- The chunking loop of `parseExcelFile`: push each row onto `currentChunk`,
emit the chunk when it reaches `CHUNK_SIZE`, and flush a non-empty remainder
after the last row. -/
def excelBatches : List Rec → List Rec → List (List Rec)
  | cur, [] => if cur.length > 0 then [cur] else []
  | cur, r :: rest =>
      if (cur ++ [r]).length ≥ CHUNK_SIZE then
        (cur ++ [r]) :: excelBatches [] rest
      else
        excelBatches (cur ++ [r]) rest

/-- Insertion-ordered set union, modelling `fields.forEach(f => set.add(f))`
followed by `Array.from(set)`. -/
def addFields (acc : List String) (fs : List String) : List String :=
  fs.foldl (fun a f => if f ∈ a then a else a ++ [f]) acc

/-- Result summary of a spreadsheet parse. -/
structure ExcelParse where
  batches : List (List Rec)
  totalRows : Nat
  fields : List String
deriving DecidableEq, Repr

/-- `parseExcelFile` on the first worksheet: row 1 is the header row, the
remaining (non-empty, as visited by `eachRow`) rows become records, emitted
in arrival order in chunks of `CHUNK_SIZE`; `totalRows` is incremented once
per visited data row, hence equals the number of records. -/
def parseExcelSheet (headerRow : List (Option CellValue))
    (dataRows : List (List (Option CellValue))) : ExcelParse :=
  let headers := extractHeaders headerRow
  let records := dataRows.map (rowDataOf headers)
  { batches := excelBatches [] records
    totalRows := records.length
    fields := addFields [] headers }

/-! ## Tabular decoder, delimited-text variant (CSV worker) -/

/-- One chunk as delivered by the external parser (PapaParse) to the worker:
its row-count granularity is chosen by the parser, not by this code. -/
structure ParserChunk where
  data : List Rec
  fields : List String
  errs : List String
deriving DecidableEq, Repr

/-- Aggregate worker output: the per-chunk batches it posted, and the
`complete` message totals. -/
structure WorkerOutput where
  batches : List (List Rec)
  totalRows : Nat
  fields : List String
  errs : List String
deriving DecidableEq, Repr

/-- The worker's `chunk` callback: adds `results.data.length` to `totalRows`,
merges the chunk's fields into the running set, appends its errors, and posts
`results.data` verbatim as a batch. -/
def csvWorkerStep (acc : WorkerOutput) (c : ParserChunk) : WorkerOutput :=
  { batches := acc.batches ++ [c.data]
    totalRows := acc.totalRows + c.data.length
    fields := addFields acc.fields c.fields
    errs := acc.errs ++ c.errs }

/-- The `chunk`/`complete` logic of `createCSVParserWorker` over the whole
parser-chunk stream; the `complete` message reports the accumulated totals. -/
def csvWorkerRun (chunks : List ParserChunk) : WorkerOutput :=
  chunks.foldl csvWorkerStep ⟨[], 0, [], []⟩

/-! ## Row reconciliation store (`PatientTable.tsx`) -/

/-- The reconciliation state held by `PatientTable`: the working copy
(`tableData`), the immutable snapshot (`originalData`, a deep copy), the
dirty row indices and the current row selection.  A JS `Set` and the index
keys of the selection object are insertion-ordered collections without
duplicates, modelled as lists with membership-guarded insertion. -/
structure TableState where
  tableData : List Rec
  originalData : List Rec
  dirtyRows : List Nat
  rowSelection : List Nat
deriving DecidableEq

/-- `set.add(i)` on a JS `Set`: a no-op when present, appended otherwise. -/
def addIndex (l : List Nat) (i : Nat) : List Nat :=
  if i ∈ l then l else l ++ [i]

/-- The load effect (`useEffect` on `data`): working copy and snapshot are
both set from the fetched records (the snapshot via `JSON.parse(JSON.stringify)`
deep copy, which is value equality here), dirty set and selection cleared. -/
def loadData (records : List Rec) : TableState :=
  ⟨records, records, [], []⟩

/-- `updateData(rowIndex, columnId, value)`: writes the value into the working
copy and unconditionally adds `rowIndex` to the dirty set. -/
def updateData (s : TableState) (rowIndex : Nat) (columnId : String)
    (value : CellValue) : TableState :=
  { s with
    tableData :=
      s.tableData.set rowIndex (setField (s.tableData.getD rowIndex []) columnId value)
    dirtyRows := addIndex s.dirtyRows rowIndex }

/-- The string the editable cell renders and compares against:
`String(getValue() || '')` — the current working value, with falsy values
collapsing to the empty string. -/
def cellDisplay (r : Rec) (columnId : String) : String :=
  match getField r columnId with
  | none => ""
  | some v => if jsFalsy v then "" else cellToString v

/-- A user edit: the cell `onBlur` handler calls `updateData` only when the
new text differs from the current working value. -/
def editCell (s : TableState) (rowIndex : Nat) (columnId : String)
    (newValue : String) : TableState :=
  if newValue ≠ cellDisplay (s.tableData.getD rowIndex []) columnId then
    updateData s rowIndex columnId (.str newValue)
  else s

/-- A finite sequence of user edits, applied left to right. -/
def applyEdits (s : TableState) (es : List (Nat × String × String)) : TableState :=
  es.foldl (fun t e => editCell t e.1 e.2.1 e.2.2) s

/-- Whether a row carries a truthy `_id` (the `if (!row._id) throw` guard). -/
def hasId (r : Rec) : Bool :=
  match getField r "_id" with
  | some v => !(jsFalsy v)
  | none => false

/-- The dirty indices as a list (`Array.from(dirtyRows)`, which iterates the
set in insertion order). -/
def dirtyList (s : TableState) : List Nat :=
  s.dirtyRows

inductive SaveOutcome where
  | missingId
  | noChanges
  | httpError
  | saved (modifiedCount : Nat)
deriving DecidableEq, Repr

/-- The `modifiedRows` the save collects: one working-copy row per dirty
index. -/
def saveRows (s : TableState) : List Rec :=
  (dirtyList s).map (fun i => s.tableData.getD i [])

/-- `handleSaveChanges`: collects the dirty rows, throwing (before any fetch)
if one lacks a truthy `_id`; a dirty set with no rows is a no-op; otherwise a
single PUT is issued — on success the snapshot becomes the working copy and
the dirty set is cleared, on HTTP failure the state is left unchanged.  The
`serverOk`/`modifiedCount` arguments stand for the server response; the last
component of the result records whether a network request was issued. -/
def handleSaveChanges (s : TableState) (serverOk : Bool) (modifiedCount : Nat) :
    SaveOutcome × TableState × Bool :=
  if (saveRows s).any (fun r => !(hasId r)) then
    (.missingId, s, false)
  else if (saveRows s).length = 0 then
    (.noChanges, s, false)
  else if serverOk then
    (.saved modifiedCount, { s with originalData := s.tableData, dirtyRows := [] }, true)
  else
    (.httpError, s, true)

/-- `handleRevertChanges`: working copy becomes a deep copy of the snapshot,
dirty set cleared. -/
def handleRevertChanges (s : TableState) : TableState :=
  { s with tableData := s.originalData, dirtyRows := [] }

/-- The selected indices as a list (`Object.keys(rowSelection)`). -/
def selectionList (s : TableState) : List Nat :=
  s.rowSelection

/-- The selected rows of the working copy. -/
def selectedRows (s : TableState) : List Rec :=
  (selectionList s).map (fun i => s.tableData.getD i [])

/-- The `_id` of a row as the string used in the DELETE request URL. -/
def rowIdStr (r : Rec) : String :=
  match getField r "_id" with
  | some v => cellToString v
  | none => ""

inductive DeleteOutcome where
  | noSelection
  | missingId
  | failed
  | success
deriving DecidableEq, Repr

/-- The DELETE requests already dispatched while the promise array is built:
one per selected row up to (excluding) the first id-less row. -/
def deleteRequests (s : TableState) : List String :=
  ((selectedRows s).takeWhile (fun r => hasId r)).map rowIdStr

/-- `handleDeleteSelected`: with no selection it errors out; the promise array
is built synchronously, so DELETE requests for the selected rows before the
first id-less row are already dispatched when the missing-id throw aborts
(the dispatched ids are the last component of the result); with all ids
present `Promise.all` is awaited — any failed delete rejects it (reporting
only that first failure, local state untouched), and only when every delete
succeeds does the handler clear the selection, refetch, and replace working
copy, snapshot (deep copy) and dirty set wholesale with the fetched data.
`failIds` stands for the ids whose DELETE fails; `refetched` for the
records the follow-up GET returns. -/
def handleDeleteSelected (s : TableState) (failIds : List String)
    (refetched : List Rec) : DeleteOutcome × TableState × List String :=
  if (selectedRows s).length = 0 then
    (.noSelection, s, [])
  else if (selectedRows s).any (fun r => !(hasId r)) then
    (.missingId, s, deleteRequests s)
  else if (selectedRows s).any (fun r => failIds.contains (rowIdStr r)) then
    (.failed, s, deleteRequests s)
  else
    (.success, ⟨refetched, refetched, [], []⟩, deleteRequests s)

/-- The store states reachable through the component's operations. -/
inductive Reachable : TableState → Prop
  | load (records : List Rec) : Reachable (loadData records)
  | edit {s : TableState} (i : Nat) (k v : String) :
      Reachable s → Reachable (editCell s i k v)
  | save {s : TableState} (ok : Bool) (mc : Nat) :
      Reachable s → Reachable (handleSaveChanges s ok mc).2.1
  | revert {s : TableState} : Reachable s → Reachable (handleRevertChanges s)
  | delete {s : TableState} (f : List String) (r : List Rec) :
      Reachable s → Reachable (handleDeleteSelected s f r).2.1
  | select {s : TableState} (sel : List Nat) :
      Reachable s → Reachable { s with rowSelection := sel }

/-! ## Persistence boundary (`models/Patient.ts` and the API routes) -/

def isHexDigit (c : Char) : Bool :=
  c.isDigit || (97 ≤ c.toNat && c.toNat ≤ 102) || (65 ≤ c.toNat && c.toNat ≤ 70)

/-- Whether `new ObjectId(s)` accepts the string: a 24-character hex token
(the constructor throws a `BSONError` otherwise). -/
def isValidObjectId (s : String) : Bool :=
  s.length = 24 && s.toList.all isHexDigit

/-- `preparePatient`: copies the record; a truthy string `_id` is converted
with `new ObjectId` (identity on the string value here, `none` when the
constructor throws); `createdAt` is set to the current server time when
absent or falsy and kept otherwise; `updatedAt` is always stamped.  `now`
stands for `new Date()`. -/
def preparePatient (p : Rec) (now : Nat) : Option Rec :=
  let idOk :=
    match getField p "_id" with
    | some v =>
        if jsFalsy v then true
        else
          match v with
          | .str s => isValidObjectId s
          | _ => true
    | none => true
  if idOk then
    let p2 :=
      match getField p "createdAt" with
      | some v => if jsFalsy v then setField p "createdAt" (.date now) else p
      | none => setField p "createdAt" (.date now)
    some (setField p2 "updatedAt" (.date now))
  else none

/-- One `updateOne` operation of the bulk write: the filter id and the
`$set` document. -/
structure UpdateOp where
  filterId : String
  setFields : Rec
deriving DecidableEq, Repr

/-- An HTTP response as far as the claims observe it. -/
structure ApiResponse where
  status : Nat
  error : Option String
  modifiedCount : Option Nat
deriving DecidableEq, Repr

/-- The per-entry body of the bulk PUT's `patients.map`: throwing paths
(`!patient._id`, a malformed string id in `toObjectId` or inside
`preparePatient`) become `none`; otherwise the operation filters on the id
and `$set`s `preparePatient(patient)` minus the destructured `_id`. -/
def buildUpdateOp (now : Nat) (patient : Rec) : Option UpdateOp :=
  match getField patient "_id" with
  | none => none
  | some v =>
      if jsFalsy v then none
      else if (match v with | .str s => isValidObjectId s | _ => true) then
        match preparePatient patient now with
        | some prep => some ⟨cellToString v, removeField prep "_id"⟩
        | none => none
      else none

/-- JS `Array.prototype.map` with a body that can throw: the first throwing
element aborts the whole map. -/
def mapOptionAll (f : α → Option β) : List α → Option (List β)
  | [] => some []
  | a :: as =>
      match f a with
      | none => none
      | some b =>
          match mapOptionAll f as with
          | none => none
          | some bs => some (b :: bs)

/-- The PUT branch of `/api/patients` (bulk update): a non-array body is a
400; any throw while building the operations escapes to the route's outer
catch and yields a 500; otherwise `bulkWrite` runs and the server-reported
modified count is returned (0 without any operation).  `serverModified`
stands for `result.modifiedCount`. -/
def bulkPutHandler (body : Option (List Rec)) (now : Nat) (serverModified : Nat) :
    ApiResponse × List UpdateOp :=
  match body with
  | none => (⟨400, some "Expected array of patients", none⟩, [])
  | some patients =>
      match mapOptionAll (buildUpdateOp now) patients with
      | none => (⟨500, some "Internal server error", none⟩, [])
      | some ops =>
          if ops.length > 0 then (⟨200, none, some serverModified⟩, ops)
          else (⟨200, none, some 0⟩, [])

inductive HttpMethod where
  | GET
  | PUT
  | DELETE
  | POST
deriving DecidableEq, Repr

/-- `findOne({ _id: toObjectId(id) })` over the collection. -/
def findOneById (db : List Rec) (id : String) : Option Rec :=
  db.find? (fun r => getField r "_id" == some (.str id))

/-- Applies a `$set` document to a record. -/
def applySet (r : Rec) (fields : Rec) : Rec :=
  fields.foldl (fun acc kv => setField acc kv.1 kv.2) r

/-- The `/api/patients/[id]` route: a missing or empty id is rejected up
front; each method wraps its collection call in a try/catch that turns the
`toObjectId` throw into a 400 `Invalid patient ID format`; GET/PUT report
404 when no record matches, DELETE when nothing was deleted.  Returns the
response and the collection afterwards. -/
def idHandler (method : HttpMethod) (id : Option String) (body : Rec)
    (db : List Rec) (now : Nat) : ApiResponse × List Rec :=
  match id with
  | none => (⟨400, some "Invalid patient ID", none⟩, db)
  | some id =>
      if id.length = 0 then (⟨400, some "Invalid patient ID", none⟩, db)
      else
        match method with
        | .GET =>
            if isValidObjectId id then
              match findOneById db id with
              | none => (⟨404, some "Patient not found", none⟩, db)
              | some _ => (⟨200, none, none⟩, db)
            else (⟨400, some "Invalid patient ID format", none⟩, db)
        | .PUT =>
            let mismatch :=
              match getField body "_id" with
              | some v => !(jsFalsy v) && v != CellValue.str id
              | none => false
            if mismatch then
              (⟨400, some "Patient ID in the URL does not match the ID in the request body", none⟩, db)
            else
              let body2 := setField body "_id" (.str id)
              if isValidObjectId id then
                match preparePatient body2 now with
                | none => (⟨400, some "Invalid patient ID format", none⟩, db)
                | some prep =>
                    match findOneById db id with
                    | none => (⟨404, some "Patient not found", none⟩, db)
                    | some _ =>
                        (⟨200, none, none⟩,
                          db.map (fun r =>
                            if getField r "_id" == some (.str id) then applySet r prep else r))
              else (⟨400, some "Invalid patient ID format", none⟩, db)
        | .DELETE =>
            if isValidObjectId id then
              match findOneById db id with
              | none => (⟨404, some "Patient not found", none⟩, db)
              | some _ =>
                  (⟨200, none, none⟩,
                    db.filter (fun r => !(getField r "_id" == some (.str id))))
            else (⟨400, some "Invalid patient ID format", none⟩, db)
        | .POST => (⟨405, some "Method not allowed", none⟩, db)

/-- The request body of `/api/patients/upload` as the handler inspects it:
`req.body.patients` missing or not an array collapses to `invalid`
(`!Array.isArray(patients)` treats both alike). -/
inductive UploadBody where
  | invalid
  | arr (patients : List Rec)
deriving DecidableEq, Repr

/-- The `/api/patients/upload` POST handler: non-POST is 405; a missing,
non-array or empty `patients` payload is rejected with 400 before touching
the collection; otherwise the documents are prepared (a throw gives the
outer catch's 500) and inserted with one atomic `insertMany` (`insertOk`
stands for its outcome).  The last component records whether `insertMany`
was attempted. -/
def uploadHandler (method : HttpMethod) (body : UploadBody) (db : List Rec)
    (now : Nat) (insertOk : Bool) : ApiResponse × List Rec × Bool :=
  if method != HttpMethod.POST then (⟨405, some "Method not allowed", none⟩, db, false)
  else
    match body with
    | .invalid => (⟨400, some "Invalid or empty patients array", none⟩, db, false)
    | .arr patients =>
        if patients.length = 0 then
          (⟨400, some "Invalid or empty patients array", none⟩, db, false)
        else
          match mapOptionAll (fun p => preparePatient p now) patients with
          | none => (⟨500, some "Failed to process upload", none⟩, db, false)
          | some docs =>
              if insertOk then (⟨200, none, none⟩, db ++ docs, true)
              else (⟨500, some "Failed to process upload", none⟩, db, true)

/-! ## Helper lemmas -/

theorem getField_setField_same (r : Rec) (k : String) (v : CellValue) :
    getField (setField r k v) k = some v := by
  induction r with
  | nil => simp [setField, getField]
  | cons kv rest ih =>
      obtain ⟨k1, v1⟩ := kv
      by_cases h : k1 = k
      · simp [setField, getField, h]
      · simp [setField, getField, h, ih]

theorem getField_setField_other (r : Rec) (k k2 : String) (v : CellValue)
    (h : k2 ≠ k) : getField (setField r k v) k2 = getField r k2 := by
  induction r with
  | nil => simp [setField, getField, h.symm]
  | cons kv rest ih =>
      obtain ⟨k1, v1⟩ := kv
      by_cases h1 : k1 = k
      · subst h1
        simp [setField, getField, h.symm]
      · by_cases h2 : k1 = k2
        · simp [setField, getField, h1, h2, h]
        · simp [setField, getField, h1, h2, ih]

theorem getField_removeField_same (r : Rec) (k : String) :
    getField (removeField r k) k = none := by
  induction r with
  | nil => simp [removeField, getField]
  | cons kv rest ih =>
      obtain ⟨k1, v1⟩ := kv
      by_cases h : k1 = k
      · simpa [removeField, List.filter_cons, h] using ih
      · simpa [removeField, List.filter_cons, h, getField] using ih

theorem getField_removeField_other (r : Rec) (k k2 : String) (h : k2 ≠ k) :
    getField (removeField r k) k2 = getField r k2 := by
  induction r with
  | nil => simp [removeField, getField]
  | cons kv rest ih =>
      obtain ⟨k1, v1⟩ := kv
      by_cases h1 : k1 = k
      · subst h1
        simpa [removeField, List.filter_cons, getField, h.symm] using ih
      · by_cases h2 : k1 = k2
        · simp [removeField, List.filter_cons, getField, h1, h2, h]
        · simpa [removeField, List.filter_cons, getField, h1, h2] using ih

theorem preparePatient_fields (p : Rec) (now : Nat) (prep : Rec)
    (hp : preparePatient p now = some prep) :
    getField prep "updatedAt" = some (.date now) ∧
    getField prep "createdAt" ≠ none ∧
    (∀ k, k ≠ "createdAt" → k ≠ "updatedAt" → getField prep k = getField p k) := by
  unfold preparePatient at hp
  by_cases hid : (match getField p "_id" with
      | some v => if jsFalsy v then true
          else match v with | .str s => isValidObjectId s | _ => true
      | none => true) = true
  · rw [if_pos hid] at hp
    injection hp with hp
    subst hp
    refine ⟨getField_setField_same _ _ _, ?_, ?_⟩
    · rw [getField_setField_other _ _ _ _ (by decide)]
      rcases hc : getField p "createdAt" with _ | v
      · simp [getField_setField_same]
      · by_cases hf : jsFalsy v = true
        · simp [hf, getField_setField_same]
        · simp [hf, hc]
    · intro k hk1 hk2
      rw [getField_setField_other _ _ _ _ hk2]
      rcases hc : getField p "createdAt" with _ | v
      · simp [getField_setField_other _ _ _ _ hk1]
      · by_cases hf : jsFalsy v = true
        · simp [hf, getField_setField_other _ _ _ _ hk1]
        · simp [hf]
  · rw [if_neg hid] at hp
    exact absurd hp (by simp)

theorem mapOptionAll_eq_none_of_mem (f : α → Option β) {l : List α} {a : α}
    (ha : a ∈ l) (hf : f a = none) : mapOptionAll f l = none := by
  induction l with
  | nil => cases ha
  | cons x xs ih =>
      rcases List.mem_cons.mp ha with rfl | hm
      · simp [mapOptionAll, hf]
      · unfold mapOptionAll
        cases f x with
        | none => rfl
        | some b => rw [ih hm]

theorem excelBatches_flatten (rows : List Rec) :
    ∀ cur, (excelBatches cur rows).flatten = cur ++ rows := by
  induction rows with
  | nil =>
      intro cur
      by_cases h : cur.length > 0
      · simp [excelBatches, h]
      · simp [excelBatches, h,
          List.eq_nil_of_length_eq_zero (Nat.eq_zero_of_not_pos h)]
  | cons r rest ih =>
      intro cur
      by_cases h : CHUNK_SIZE ≤ cur.length + 1
      · simp [excelBatches, h, ih]
      · simp [excelBatches, h, ih]

theorem mem_dropLast_cons {α} {b x : α} {L : List α}
    (hb : b ∈ (x :: L).dropLast) : b = x ∨ b ∈ L.dropLast := by
  cases L with
  | nil => simp [List.dropLast] at hb
  | cons y ys =>
      rw [List.dropLast_cons₂] at hb
      exact List.mem_cons.mp hb

theorem excelBatches_dropLast (rows : List Rec) :
    ∀ cur, cur.length < CHUNK_SIZE →
      ∀ b ∈ (excelBatches cur rows).dropLast, b.length = CHUNK_SIZE := by
  induction rows with
  | nil =>
      intro cur _ b hb
      by_cases h0 : cur.length > 0 <;> simp [excelBatches, h0] at hb
  | cons r rest ih =>
      intro cur hcur b hb
      by_cases hc : (cur ++ [r]).length ≥ CHUNK_SIZE
      · have hlen : (cur ++ [r]).length = CHUNK_SIZE := by
          have h1 : (cur ++ [r]).length = cur.length + 1 := by simp
          omega
        simp only [excelBatches, if_pos hc] at hb
        rcases mem_dropLast_cons hb with rfl | hb2
        · exact hlen
        · exact ih [] (by simp [CHUNK_SIZE]) b hb2
      · simp only [excelBatches, if_neg hc] at hb
        have hlt : (cur ++ [r]).length < CHUNK_SIZE := Nat.lt_of_not_le hc
        exact ih (cur ++ [r]) hlt b hb

theorem csvWorkerFold_batches (chunks : List ParserChunk) :
    ∀ acc, (chunks.foldl csvWorkerStep acc).batches
      = acc.batches ++ chunks.map ParserChunk.data := by
  induction chunks with
  | nil => intro acc; simp
  | cons c rest ih =>
      intro acc
      simp [List.foldl_cons, ih, csvWorkerStep]

theorem csvWorkerFold_totalRows (chunks : List ParserChunk) :
    ∀ acc, (chunks.foldl csvWorkerStep acc).totalRows
      = acc.totalRows + (chunks.map (fun c => c.data.length)).sum := by
  induction chunks with
  | nil => intro acc; simp
  | cons c rest ih =>
      intro acc
      simp [List.foldl_cons, ih, csvWorkerStep]
      omega

theorem extractHeadersFrom_length (row : List CellValue) :
    ∀ n, (extractHeadersFrom n (row.map some)).length = row.length := by
  induction row with
  | nil => intro n; rfl
  | cons c rest ih => intro n; simp [extractHeadersFrom, ih]

theorem extractHeadersFrom_getD (row : List CellValue) :
    ∀ n i, i < row.length →
      (extractHeadersFrom n (row.map some)).getD i ""
        = (if cellToString (row.getD i .null) = ""
           then "Column" ++ toString (n + i)
           else cellToString (row.getD i .null)) := by
  induction row with
  | nil => intro n i h; simp at h
  | cons c rest ih =>
      intro n i h
      cases i with
      | zero => simp [extractHeadersFrom]
      | succ j =>
          have hj : j < rest.length := by simpa using h
          have harith : n + 1 + j = n + (j + 1) := by omega
          simp only [List.map_cons, extractHeadersFrom, List.getD_cons_succ]
          rw [ih (n + 1) j hj, harith]

theorem editCell_originalData (s : TableState) (i : Nat) (k v : String) :
    (editCell s i k v).originalData = s.originalData := by
  unfold editCell updateData
  split <;> rfl

theorem editCell_rowSelection (s : TableState) (i : Nat) (k v : String) :
    (editCell s i k v).rowSelection = s.rowSelection := by
  unfold editCell updateData
  split <;> rfl

theorem subset_addIndex (l : List Nat) (i : Nat) : l ⊆ addIndex l i := by
  unfold addIndex
  split
  · exact List.Subset.refl _
  · exact List.subset_append_left _ _

theorem mem_addIndex_self (l : List Nat) (i : Nat) : i ∈ addIndex l i := by
  unfold addIndex
  split
  · assumption
  · exact List.mem_append_right _ (List.mem_singleton_self i)

theorem addIndex_ne_nil (l : List Nat) (i : Nat) : addIndex l i ≠ [] := by
  intro h
  have hm := mem_addIndex_self l i
  rw [h] at hm
  exact List.not_mem_nil _ hm

theorem editCell_dirty_mono (s : TableState) (i : Nat) (k v : String) :
    s.dirtyRows ⊆ (editCell s i k v).dirtyRows := by
  unfold editCell updateData
  split
  · exact subset_addIndex _ _
  · exact List.Subset.refl _

theorem applyEdits_cons (s : TableState) (e : Nat × String × String)
    (es : List (Nat × String × String)) :
    applyEdits s (e :: es) = applyEdits (editCell s e.1 e.2.1 e.2.2) es := rfl

theorem applyEdits_originalData (es : List (Nat × String × String)) :
    ∀ s, (applyEdits s es).originalData = s.originalData := by
  induction es with
  | nil => intro s; rfl
  | cons e rest ih =>
      intro s
      rw [applyEdits_cons, ih, editCell_originalData]

theorem applyEdits_rowSelection (es : List (Nat × String × String)) :
    ∀ s, (applyEdits s es).rowSelection = s.rowSelection := by
  induction es with
  | nil => intro s; rfl
  | cons e rest ih =>
      intro s
      rw [applyEdits_cons, ih, editCell_rowSelection]

theorem applyEdits_dirty_mono (es : List (Nat × String × String)) :
    ∀ s : TableState, s.dirtyRows ⊆ (applyEdits s es).dirtyRows := by
  induction es with
  | nil => intro s; exact List.Subset.refl _
  | cons e rest ih =>
      intro s
      rw [applyEdits_cons]
      exact (editCell_dirty_mono s e.1 e.2.1 e.2.2).trans
        (ih (editCell s e.1 e.2.1 e.2.2))

/-- Edits only ever grow the dirty set, so a run of edits that ends with an
empty dirty set started clean and did nothing at all. -/
theorem applyEdits_clean (es : List (Nat × String × String)) :
    ∀ s : TableState, (applyEdits s es).dirtyRows = [] → applyEdits s es = s := by
  induction es with
  | nil => intro s _; rfl
  | cons e rest ih =>
      intro s h
      by_cases hc : e.2.2 ≠ cellDisplay (s.tableData.getD e.1 []) e.2.1
      · exfalso
        have hmem : e.1 ∈ (editCell s e.1 e.2.1 e.2.2).dirtyRows := by
          unfold editCell updateData
          rw [if_pos hc]
          exact mem_addIndex_self _ _
        have hsub := applyEdits_dirty_mono rest (editCell s e.1 e.2.1 e.2.2)
        rw [applyEdits_cons] at h
        have hfin := hsub hmem
        rw [h] at hfin
        exact List.not_mem_nil _ hfin
      · have hid : editCell s e.1 e.2.1 e.2.2 = s := by
          unfold editCell
          rw [if_neg hc]
        rw [applyEdits_cons, hid] at h ⊢
        exact ih s h

/-- Invariant of the reachable store states: an empty dirty set means the
working copy equals the snapshot. -/
theorem reachable_clean_eq : ∀ {s : TableState}, Reachable s →
    s.dirtyRows = [] → s.tableData = s.originalData := by
  intro s hr
  induction hr with
  | load records => intro _; rfl
  | @edit t i k v hs ih =>
      intro h
      by_cases hc : v ≠ cellDisplay (t.tableData.getD i []) k
      · exfalso
        have hdr : (editCell t i k v).dirtyRows = addIndex t.dirtyRows i := by
          unfold editCell updateData
          rw [if_pos hc]
        rw [hdr] at h
        exact addIndex_ne_nil _ _ h
      · have hid : editCell t i k v = t := by
          unfold editCell
          rw [if_neg hc]
        rw [hid] at h ⊢
        exact ih h
  | @save t ok mc hs ih =>
      unfold handleSaveChanges
      split
      · exact ih
      · split
        · exact ih
        · split
          · intro _; rfl
          · exact ih
  | @revert t hs ih => intro _; rfl
  | @delete t f r hs ih =>
      unfold handleDeleteSelected
      split
      · exact ih
      · split
        · exact ih
        · split
          · exact ih
          · intro _; rfl
  | @select t sel hs ih => exact ih

/-! ## Concrete fixtures used by the claim theorems -/

/-- A loaded row whose original email is `old@x.com`. -/
def exRow : Rec :=
  [("_id", .str "0123456789abcdef01234567"), ("email", .str "old@x.com")]

/-- The store right after loading `[exRow]`. -/
def exLoaded : TableState := loadData [exRow]

/-- After `edit(0, "email", "new@x.com")`. -/
def exEdited1 : TableState := editCell exLoaded 0 "email" "new@x.com"

/-- After the further `edit(0, "email", "old@x.com")` restoring the original
value. -/
def exEdited2 : TableState := editCell exEdited1 0 "email" "old@x.com"

def rowA : Rec :=
  [("_id", .str "aaaaaaaaaaaaaaaaaaaaaaaa"), ("email", .str "a@x.com")]

def rowB : Rec :=
  [("_id", .str "bbbbbbbbbbbbbbbbbbbbbbbb"), ("email", .str "b@x.com")]

/-- `rowA` with an unsaved edit on its email. -/
def rowAEdited : Rec := setField rowA "email" (.str "edited@x.com")

/-- A store where row 0 carries an unsaved edit (dirty) and row 1 — clean,
with an id — is selected for deletion. -/
def c5state : TableState := ⟨[rowAEdited, rowB], [rowA, rowB], [0], [1]⟩

/-- A parser chunk stream for the CSV worker in which the external parser
delivers a first chunk of 5 rows: nothing in the worker re-batches it. -/
def c2csvChunks : List ParserChunk :=
  [⟨List.replicate 5 [("a", .str "x")], ["a"], []⟩,
   ⟨[[("a", .str "y")]], ["a"], []⟩]

/-- An update entry that already carries a `createdAt`. -/
def c6patient : Rec :=
  [("_id", .str "0123456789abcdef01234567"),
   ("createdAt", .str "2024-01-01T00:00:00.000Z"),
   ("firstName", .str "Bob")]

/-- A well-formed update entry without `createdAt`. -/
def c6good : Rec :=
  [("_id", .str "0123456789abcdef01234567"), ("firstName", .str "Ann")]

/-- The operation the bulk update builds from `c6good` at server time 7. -/
def c6op : UpdateOp :=
  ⟨"0123456789abcdef01234567",
   [("firstName", .str "Ann"), ("createdAt", .date 7), ("updatedAt", .date 7)]⟩

/-- An update entry whose `_id` is a malformed (non-24-hex) token. -/
def c8bad : Rec := [("_id", .str "zzz"), ("firstName", .str "A")]

/-! ## Claims -/

/-- C1, counterexample: on the claim's own scenario the code keeps the dirty
set at `{0}` after the value is edited back to its original — `updateData`
only ever inserts into the dirty set and the `onBlur` guard compares against
the current working value, not the original snapshot — even though the
working copy is again structurally equal to the snapshot.  The claimed
`dirty set = {}` (and with it the claimed iff) is false. -/
theorem C1_counterexample :
    exEdited1.dirtyRows = [0] ∧
    exEdited2.dirtyRows = [0] ∧
    exEdited2.dirtyRows ≠ [] ∧
    exEdited2.tableData = exEdited2.originalData := by decide

/-- C1, amended: only one direction of the invariant holds — on every
reachable store state an empty dirty set implies the working copy equals the
original snapshot (edits only ever grow the dirty set, and a clean run of
edits is a no-op), but dirtiness is recorded relative to the working value
at edit time and never cleared by an edit, so the claim's scenario ends with
dirty set `{0}`, not `{}`. -/
theorem C1_theorem :
    (∀ s : TableState, Reachable s → s.dirtyRows = [] →
        s.tableData = s.originalData) ∧
    (∀ (d : List Rec) (es : List (Nat × String × String)),
        (applyEdits (loadData d) es).dirtyRows = [] →
        (applyEdits (loadData d) es).tableData = d) ∧
    exEdited1.dirtyRows = [0] ∧ exEdited2.dirtyRows = [0] := by
  refine ⟨fun s hr h => reachable_clean_eq hr h, ?_, by decide, by decide⟩
  intro d es h
  rw [applyEdits_clean es (loadData d) h]
  rfl

/-- C1, witness for the amended theorem at a concrete input. -/
theorem C1_witness :
    (loadData [exRow]).tableData = (loadData [exRow]).originalData ∧
    (applyEdits (loadData [exRow]) []).tableData = [exRow] ∧
    exEdited1.dirtyRows = [0] :=
  ⟨C1_theorem.1 (loadData [exRow]) (Reachable.load [exRow]) rfl,
   C1_theorem.2.1 [exRow] [] rfl, C1_theorem.2.2.1⟩

/-- C2, counterexample: the CSV worker forwards parser-delivered chunks
verbatim, so a non-final emitted batch of 5 rows (not `CHUNK_SIZE = 100`)
occurs as soon as the external parser splits the stream that way; the
claimed "every batch except the last has exactly B rows" fails for the
delimited-text variant. -/
theorem C2_counterexample :
    (csvWorkerRun c2csvChunks).batches.map List.length = [5, 1] ∧
    ((csvWorkerRun c2csvChunks).batches.dropLast.all
        (fun b => b.length == CHUNK_SIZE)) = false := by decide

/-- C2, amended: the spreadsheet variant does emit batches of exactly 100
rows except possibly the final flushed remainder, in arrival order, with the
batch sizes summing to `totalRows`; the CSV variant emits the parser's
chunks verbatim (sizes chosen by the external parser, not fixed at B), still
in arrival order with sizes summing to the reported `totalRows`. -/
theorem C2_theorem :
    (∀ (hr : List (Option CellValue)) (dr : List (List (Option CellValue))),
        (parseExcelSheet hr dr).batches.flatten
            = dr.map (rowDataOf (extractHeaders hr)) ∧
        ((parseExcelSheet hr dr).batches.map List.length).sum
            = (parseExcelSheet hr dr).totalRows ∧
        (∀ b ∈ (parseExcelSheet hr dr).batches.dropLast,
            b.length = CHUNK_SIZE)) ∧
    (∀ chunks : List ParserChunk,
        (csvWorkerRun chunks).batches = chunks.map ParserChunk.data ∧
        ((csvWorkerRun chunks).batches.map List.length).sum
            = (csvWorkerRun chunks).totalRows) := by
  constructor
  · intro hr dr
    refine ⟨?_, ?_, ?_⟩
    · show (excelBatches [] (dr.map (rowDataOf (extractHeaders hr)))).flatten = _
      rw [excelBatches_flatten]
      exact List.nil_append _
    · show ((excelBatches [] (dr.map (rowDataOf (extractHeaders hr)))).map List.length).sum
          = (dr.map (rowDataOf (extractHeaders hr))).length
      rw [← List.length_flatten, excelBatches_flatten]
      exact congrArg List.length (List.nil_append _)
    · exact excelBatches_dropLast _ [] (by simp [CHUNK_SIZE])
  · intro chunks
    constructor
    · show (chunks.foldl csvWorkerStep ⟨[], 0, [], []⟩).batches = _
      rw [csvWorkerFold_batches]
      exact List.nil_append _
    · show ((chunks.foldl csvWorkerStep ⟨[], 0, [], []⟩).batches.map List.length).sum
          = (chunks.foldl csvWorkerStep ⟨[], 0, [], []⟩).totalRows
      rw [csvWorkerFold_batches, csvWorkerFold_totalRows]
      simp [Function.comp_def]

/-- C2, witness for the amended theorem at concrete inputs, including a
batch of the spreadsheet variant's dropLast (101 data rows give a first
batch of exactly 100). -/
theorem C2_witness :
    (parseExcelSheet [some (.str "h")] [[some (.str "x")]]).batches.flatten
        = [[("h", CellValue.str "x")]] ∧
    ((parseExcelSheet [some (.str "h")]
        (List.replicate 101 [some (.str "x")])).batches.getD 0 []).length
        = CHUNK_SIZE ∧
    ((csvWorkerRun c2csvChunks).batches.map List.length).sum
        = (csvWorkerRun c2csvChunks).totalRows := by
  refine ⟨?_, ?_, (C2_theorem.2 c2csvChunks).2⟩
  · rw [(C2_theorem.1 [some (.str "h")] [[some (.str "x")]]).1]
    decide
  · exact (C2_theorem.1 [some (.str "h")] (List.replicate 101 [some (.str "x")])).2.2
      _ (by decide)

/-- C3, confirmed: a save on a store with a dirty row lacking a truthy `_id`
throws while collecting `modifiedRows`, before the PUT is issued — the result
is the missing-identifier outcome, no request (`false`), and the state
(working copy, snapshot, dirty set, selection) entirely unchanged. -/
theorem C3_theorem : ∀ (s : TableState) (ok : Bool) (mc : Nat),
    (∃ i ∈ s.dirtyRows, hasId (s.tableData.getD i []) = false) →
    handleSaveChanges s ok mc = (SaveOutcome.missingId, s, false) := by
  intro s ok mc h
  obtain ⟨i, hi, hid⟩ := h
  have hany : (saveRows s).any (fun r => !(hasId r)) = true := by
    apply List.any_eq_true.mpr
    refine ⟨s.tableData.getD i [], ?_, ?_⟩
    · exact List.mem_map_of_mem _ hi
    · simpa using hid
  unfold handleSaveChanges
  rw [if_pos hany]

/-- A store whose single row is dirty and has no identifier. -/
def c3state : TableState :=
  ⟨[[("email", .str "a@b.com")]], [[("email", .str "a@b.com")]], [0], []⟩

/-- C3, witness at a concrete store. -/
theorem C3_witness :
    handleSaveChanges c3state true 1 = (SaveOutcome.missingId, c3state, false) :=
  C3_theorem c3state true 1 ⟨0, by decide, by decide⟩

/-- C4, confirmed: after a load and any finite sequence of edits, a single
revert restores the exact post-load state (working copy equal to the
snapshot, dirty set and selection empty) — and the snapshot a successful
save installs is the then-current working copy, so the same argument applies
from that point on; on any reachable clean store, revert is the identity. -/
theorem C4_theorem :
    (∀ (d : List Rec) (es : List (Nat × String × String)),
        handleRevertChanges (applyEdits (loadData d) es) = loadData d) ∧
    (∀ (s : TableState) (mc : Nat) (es : List (Nat × String × String)),
        (handleSaveChanges s true mc).1 = SaveOutcome.saved mc →
        (handleRevertChanges
            (applyEdits (handleSaveChanges s true mc).2.1 es)).tableData
          = s.tableData) ∧
    (∀ s : TableState, Reachable s → s.dirtyRows = [] →
        handleRevertChanges s = s) := by
  refine ⟨?_, ?_, ?_⟩
  · intro d es
    have h1 : (applyEdits (loadData d) es).originalData = d := by
      rw [applyEdits_originalData]
      rfl
    have h2 : (applyEdits (loadData d) es).rowSelection = ([] : List Nat) := by
      rw [applyEdits_rowSelection]
      rfl
    generalize hgen : applyEdits (loadData d) es = t at h1 h2
    obtain ⟨ta, tb, tc, td⟩ := t
    simp only [handleRevertChanges, loadData]
    simp at h1 h2
    rw [h1, h2]
  · intro s mc es hs
    have ht : (handleSaveChanges s true mc).2.1
        = { s with originalData := s.tableData, dirtyRows := [] } := by
      unfold handleSaveChanges at hs
      split at hs
      · exact absurd hs (by simp)
      · split at hs
        · exact absurd hs (by simp)
        · rename_i h1 h2
          unfold handleSaveChanges
          rw [if_neg h1, if_neg h2]
          rfl
    show (applyEdits (handleSaveChanges s true mc).2.1 es).originalData = s.tableData
    rw [applyEdits_originalData, ht]
  · intro s hr h
    have heq := reachable_clean_eq hr h
    obtain ⟨ta, tb, tc, td⟩ := s
    simp only [handleRevertChanges]
    simp at heq h
    rw [heq, h]

/-- C4, witness at a concrete load-edit-revert run and a concrete clean
store. -/
theorem C4_witness :
    handleRevertChanges (applyEdits (loadData [exRow]) [(0, "email", "new@x.com")])
        = loadData [exRow] ∧
    (handleRevertChanges
        (applyEdits (handleSaveChanges exEdited1 true 1).2.1 [])).tableData
      = exEdited1.tableData ∧
    handleRevertChanges (loadData [exRow]) = loadData [exRow] :=
  ⟨C4_theorem.1 [exRow] [(0, "email", "new@x.com")],
   C4_theorem.2.1 exEdited1 1 [] (by decide),
   C4_theorem.2.2 (loadData [exRow]) (Reachable.load [exRow]) rfl⟩

/-- C5, counterexample: deleting the clean, selected row 1 while row 0 holds
an unsaved edit succeeds, but the handler then refetches and replaces
everything: the dirty set becomes empty (row 0 was not deleted yet vanished
from the dirty set) and the working copy loses row 0's edit — against the
claim that exactly the successfully deleted rows are removed from working
copy, snapshot and dirty set. -/
theorem C5_counterexample :
    (handleDeleteSelected c5state [] [rowA]).1 = DeleteOutcome.success ∧
    0 ∈ c5state.dirtyRows ∧
    (handleDeleteSelected c5state [] [rowA]).2.1.dirtyRows = [] ∧
    (handleDeleteSelected c5state [] [rowA]).2.1.dirtyRows ≠ [0] ∧
    (handleDeleteSelected c5state [] [rowA]).2.1.tableData ≠ [rowAEdited] := by
  decide

/-- C5, amended: one DELETE request per selected row is dispatched, but the
operation is all-or-nothing in its reporting — any failing row rejects the
whole `Promise.all`, a single error (the first failure) is reported with no
identifier list, and the local state is left entirely unchanged (rows whose
deletes succeeded server-side included); only when every delete succeeds does
the store refetch, replacing working copy and snapshot and clearing the whole
dirty set and selection.  A selected row without identifier aborts after the
preceding rows' requests were already dispatched. -/
theorem C5_theorem : ∀ (s : TableState) (failIds : List String)
    (refetched : List Rec),
    (selectedRows s).length ≠ 0 →
    ((∀ r ∈ selectedRows s, hasId r = true) →
      (handleDeleteSelected s failIds refetched).2.2
          = (selectedRows s).map rowIdStr ∧
      ((selectedRows s).any (fun r => failIds.contains (rowIdStr r)) = true →
          handleDeleteSelected s failIds refetched
            = (DeleteOutcome.failed, s, (selectedRows s).map rowIdStr)) ∧
      ((selectedRows s).any (fun r => failIds.contains (rowIdStr r)) = false →
          handleDeleteSelected s failIds refetched
            = (DeleteOutcome.success, ⟨refetched, refetched, [], []⟩,
               (selectedRows s).map rowIdStr))) ∧
    ((∃ r ∈ selectedRows s, hasId r = false) →
      handleDeleteSelected s failIds refetched
        = (DeleteOutcome.missingId, s, deleteRequests s)) := by
  intro s failIds refetched h0
  constructor
  · intro hall
    have hnone : (selectedRows s).any (fun r => !(hasId r)) = false := by
      apply List.any_eq_false.mpr
      intro r hr
      simp [hall r hr]
    have hreq : deleteRequests s = (selectedRows s).map rowIdStr := by
      unfold deleteRequests
      rw [List.takeWhile_eq_self_iff.mpr hall]
    refine ⟨?_, ?_, ?_⟩
    · unfold handleDeleteSelected
      rw [if_neg h0, if_neg (by rw [hnone]; exact Bool.false_ne_true), hreq]
      split <;> rfl
    · intro hfail
      unfold handleDeleteSelected
      rw [if_neg h0, if_neg (by rw [hnone]; exact Bool.false_ne_true),
        if_pos hfail, hreq]
    · intro hfail
      unfold handleDeleteSelected
      rw [if_neg h0, if_neg (by rw [hnone]; exact Bool.false_ne_true),
        if_neg (by rw [hfail]; exact Bool.false_ne_true), hreq]
  · intro hex
    obtain ⟨r, hr, hid⟩ := hex
    have hany : (selectedRows s).any (fun r => !(hasId r)) = true := by
      apply List.any_eq_true.mpr
      exact ⟨r, hr, by simp [hid]⟩
    unfold handleDeleteSelected
    rw [if_neg h0, if_pos hany]

/-- C5, witness at the concrete store of the counterexample. -/
theorem C5_witness :
    handleDeleteSelected c5state [] [rowA]
      = (DeleteOutcome.success, ⟨[rowA], [rowA], [], []⟩,
         ["bbbbbbbbbbbbbbbbbbbbbbbb"]) := by
  rw [((C5_theorem c5state [] [rowA] (by decide)).1 (by decide)).2.2 (by decide)]
  decide

/-- C6, counterexample: the bulk update's `$set` for an entry that carries a
`createdAt` contains that `createdAt` — only `_id` is destructured out of
`preparePatient`'s result, which keeps an existing `createdAt` (and creates
one when absent); the claim that `createdAt` is omitted from the replaced
field set is false. -/
theorem C6_counterexample :
    (bulkPutHandler (some [c6patient]) 99 1).1.status = 200 ∧
    ((bulkPutHandler (some [c6patient]) 99 1).2.map
        (fun op => getField op.setFields "createdAt"))
      = [some (CellValue.str "2024-01-01T00:00:00.000Z")] := by decide

/-- C6, amended: each built update operation excludes only the identifier
from the replaced field set; `updatedAt` is always stamped server-side,
`createdAt` is always present in the field set (kept when supplied, created
otherwise), every other named field is passed through verbatim, and with at
least one operation the handler answers 200 with the server-reported
modified count. -/
theorem C6_theorem :
    (∀ (patient : Rec) (now : Nat) (op : UpdateOp),
        buildUpdateOp now patient = some op →
        getField op.setFields "_id" = none ∧
        getField op.setFields "updatedAt" = some (.date now) ∧
        getField op.setFields "createdAt" ≠ none ∧
        (∀ k, k ≠ "_id" → k ≠ "createdAt" → k ≠ "updatedAt" →
            getField op.setFields k = getField patient k)) ∧
    (∀ (patients : List Rec) (now mc : Nat) (ops : List UpdateOp),
        mapOptionAll (buildUpdateOp now) patients = some ops → ops ≠ [] →
        bulkPutHandler (some patients) now mc = (⟨200, none, some mc⟩, ops)) := by
  constructor
  · intro patient now op hb
    unfold buildUpdateOp at hb
    split at hb
    · exact absurd hb (by simp)
    · split at hb
      · exact absurd hb (by simp)
      · split at hb
        · split at hb
          · rename_i prep hp
            injection hb with hb
            subst hb
            obtain ⟨hupd, hcre, hother⟩ := preparePatient_fields patient now prep hp
            refine ⟨getField_removeField_same _ _, ?_, ?_, ?_⟩
            · rw [getField_removeField_other _ _ _ (by decide)]
              exact hupd
            · rw [getField_removeField_other _ _ _ (by decide)]
              exact hcre
            · intro k hk1 hk2 hk3
              rw [getField_removeField_other _ _ _ hk1]
              exact hother k hk2 hk3
          · exact absurd hb (by simp)
        · exact absurd hb (by simp)
  · intro patients now mc ops hm hne
    unfold bulkPutHandler
    simp only [hm]
    rw [if_pos (List.length_pos.mpr hne)]

/-- C6, witness at a concrete entry without `createdAt` and the singleton
bulk request built from it. -/
theorem C6_witness :
    getField c6op.setFields "_id" = none ∧
    getField c6op.setFields "updatedAt" = some (.date 7) ∧
    getField c6op.setFields "firstName" = getField c6good "firstName" ∧
    bulkPutHandler (some [c6good]) 7 3 = (⟨200, none, some 3⟩, [c6op]) := by
  have h := C6_theorem.1 c6good 7 c6op (by decide)
  have h2 := C6_theorem.2 [c6good] 7 3 [c6op] (by decide) (by decide)
  exact ⟨h.1, h.2.1,
    h.2.2.2 "firstName" (by decide) (by decide) (by decide), h2⟩

/-- C7, counterexample: in the spreadsheet variant `eachCell` skips an absent
header cell entirely, so no `Column2` is synthesized for a missing cell at
column index 1 — the later headers shift left instead. -/
theorem C7_counterexample :
    extractHeaders [some (.str "first"), none, some (.str "third")]
        = ["first", "third"] ∧
    "Column2" ∉ extractHeaders [some (.str "first"), none, some (.str "third")] := by
  decide

/-- C7, amended: the `Column{i+1}` synthesis applies to header cells that are
present but whose string form is empty; for such a fully present header row
each column index `i` gets `Column{i+1}` when its cell's text is empty and
the cell's text verbatim otherwise (an absent cell is skipped, shifting the
remaining headers; the CSV variant takes the parser's field names as
delivered, without any synthesis — see `csvWorkerStep`). -/
theorem C7_theorem : ∀ (row : List CellValue) (i : Nat), i < row.length →
    (extractHeaders (row.map some)).length = row.length ∧
    (extractHeaders (row.map some)).getD i ""
      = (if cellToString (row.getD i .null) = ""
         then "Column" ++ toString (i + 1)
         else cellToString (row.getD i .null)) := by
  intro row i h
  refine ⟨extractHeadersFrom_length row 1, ?_⟩
  have hg := extractHeadersFrom_getD row 1 i h
  rw [Nat.add_comm 1 i] at hg
  exact hg

/-- C7, witness: a present-but-blank header cell at column index 1 is
synthesized as `Column2`. -/
theorem C7_witness :
    (extractHeaders ([CellValue.str "name", CellValue.str "",
        CellValue.str "age"].map some)).getD 1 "" = "Column2" := by
  rw [(C7_theorem [CellValue.str "name", CellValue.str "", CellValue.str "age"]
    1 (by decide)).2]
  decide

/-- C8: the single-record route wraps `toObjectId` in per-method try/catch
blocks that answer 400 for a malformed id, but the bulk update lets the same
`toObjectId` throw escape to its generic catch and answers 500 — a server
error where the spec requires a client error.  This theorem evaluates both:
the bulk handler at the failing input (500), and the single-record handler
for every method at the same malformed id (400). -/
theorem C8_theorem :
    (bulkPutHandler (some [c8bad]) 0 0).1
        = ⟨500, some "Internal server error", none⟩ ∧
    (∀ (patients : List Rec) (now mc : Nat) (p : Rec),
        p ∈ patients → getField p "_id" = some (.str "zzz") →
        (bulkPutHandler (some patients) now mc).1.status = 500) ∧
    (∀ (body : Rec) (db : List Rec) (now : Nat),
        (idHandler .GET (some "zzz") body db now).1.status = 400 ∧
        (idHandler .PUT (some "zzz") body db now).1.status = 400 ∧
        (idHandler .DELETE (some "zzz") body db now).1.status = 400) := by
  refine ⟨by decide, ?_, ?_⟩
  · intro patients now mc p hp hpid
    have hb : buildUpdateOp now p = none := by
      unfold buildUpdateOp
      rw [hpid]
      rfl
    have hm := mapOptionAll_eq_none_of_mem (buildUpdateOp now) hp hb
    unfold bulkPutHandler
    simp only [hm]
  · intro body db now
    have hlen := eq_false (by decide : ¬ ("zzz".length = 0))
    have hval := eq_false (by decide : ¬ (isValidObjectId "zzz" = true))
    refine ⟨?_, ?_, ?_⟩
    · simp [idHandler, hlen, hval]
    · simp only [idHandler, hlen, hval, if_false]
      split <;> rfl
    · simp [idHandler, hlen, hval]

/-- C8, witness at the concrete malformed id. -/
theorem C8_witness :
    (bulkPutHandler (some [c8bad]) 5 2).1.status = 500 ∧
    (idHandler .GET (some "zzz") [] [] 0).1.status = 400 :=
  ⟨C8_theorem.2.1 [c8bad] 5 2 c8bad (by decide) (by decide),
   (C8_theorem.2.2 [] [] 0).1⟩

/-- C9, confirmed: for an in-range row index, `updateData` leaves the length
of the working copy, every other row, every other field of the edited row,
the snapshot and the selection unchanged, and sets exactly the addressed
field to the new value. -/
theorem C9_theorem : ∀ (s : TableState) (i : Nat) (k : String) (v : CellValue)
    (j : Nat) (k2 : String), i < s.tableData.length →
    (updateData s i k v).tableData.length = s.tableData.length ∧
    (updateData s i k v).originalData = s.originalData ∧
    (updateData s i k v).rowSelection = s.rowSelection ∧
    (j ≠ i → (updateData s i k v).tableData.getD j [] = s.tableData.getD j []) ∧
    (k2 ≠ k → getField ((updateData s i k v).tableData.getD i []) k2
        = getField (s.tableData.getD i []) k2) ∧
    getField ((updateData s i k v).tableData.getD i []) k = some v := by
  intro s i k v j k2 hi
  have hset : (updateData s i k v).tableData.getD i []
      = setField (s.tableData.getD i []) k v := by
    simp [updateData, List.getD_eq_getElem?_getD, List.getElem?_set_self hi]
  refine ⟨by simp [updateData], rfl, rfl, ?_, ?_, ?_⟩
  · intro hj
    simp [updateData, List.getD_eq_getElem?_getD,
      List.getElem?_set_ne (Ne.symm hj)]
  · intro hk
    rw [hset, getField_setField_other _ _ _ _ hk]
  · rw [hset, getField_setField_same]

/-- A freshly loaded two-row store. -/
def exLoaded2 : TableState := loadData [rowA, rowB]

/-- C9, witness at a concrete two-row store. -/
theorem C9_witness :
    (updateData exLoaded2 0 "email" (.str "z@x.com")).tableData.getD 1 []
        = exLoaded2.tableData.getD 1 [] ∧
    getField ((updateData exLoaded2 0 "email" (.str "z@x.com")).tableData.getD 0 [])
        "_id" = getField (exLoaded2.tableData.getD 0 []) "_id" ∧
    getField ((updateData exLoaded2 0 "email" (.str "z@x.com")).tableData.getD 0 [])
        "email" = some (.str "z@x.com") := by
  have h := C9_theorem exLoaded2 0 "email" (.str "z@x.com") 1 "_id" (by decide)
  exact ⟨h.2.2.2.1 (by decide), h.2.2.2.2.1 (by decide), h.2.2.2.2.2⟩

/-- C10, confirmed: the upload endpoint answers 400 `Invalid or empty
patients array` for a missing/non-array and for an empty `patients` payload,
leaving the collection untouched with no insert attempted; and an insert is
only ever attempted for a non-empty array body. -/
theorem C10_theorem :
    (∀ (db : List Rec) (now : Nat) (ok : Bool),
        uploadHandler .POST .invalid db now ok
          = (⟨400, some "Invalid or empty patients array", none⟩, db, false)) ∧
    (∀ (db : List Rec) (now : Nat) (ok : Bool),
        uploadHandler .POST (.arr []) db now ok
          = (⟨400, some "Invalid or empty patients array", none⟩, db, false)) ∧
    (∀ (body : UploadBody) (db : List Rec) (now : Nat) (ok : Bool),
        (uploadHandler .POST body db now ok).2.2 = true →
        ∃ p ps, body = UploadBody.arr (p :: ps)) := by
  refine ⟨fun db now ok => rfl, fun db now ok => rfl, ?_⟩
  intro body db now ok h
  match body with
  | .invalid => exact absurd h (by simp [uploadHandler])
  | .arr [] => exact absurd h (by simp [uploadHandler])
  | .arr (p :: ps) => exact ⟨p, ps, rfl⟩

/-- C10, witness at a concrete empty store and a concrete non-empty body. -/
theorem C10_witness :
    uploadHandler .POST .invalid [] 0 true
      = (⟨400, some "Invalid or empty patients array", none⟩, [], false) ∧
    (∃ p ps, UploadBody.arr [c6good] = UploadBody.arr (p :: ps)) :=
  ⟨C10_theorem.1 [] 0 true,
   C10_theorem.2.2 (.arr [c6good]) [] 0 true (by decide)⟩
